import Mathlib

/-!
# Verification of the zlog fluent logger core

Shallow embedding of the zlog repository (`zlog.go`): the attribute-building
fluent methods (`Segment`, `Context`, `WithError`/`Err`), the frame resolver
(`getSourceString`), the bounded call-stack collector (the loop shared by
`WithCallStack` and `applyAutoFeatures`), and the per-level depth policy
(`getMaxCallStackDepth` over `defaultCallStackDepths`).

The Go runtime's stack-introspection primitives (`runtime.Caller`,
`runtime.FuncForPC`) are modelled as explicit oracle functions passed in as
parameters: `runtime.Caller(skip)` becomes `caller : Int → Option Frame`
(`none` = the `ok=false` return) and `runtime.FuncForPC(pc)` becomes
`funcForPC : Nat → Option String` (`none` = a nil `*runtime.Func`).
Fallible operations return `Option`.
-/

namespace Zlog

/-- One attribute of a log record, mirroring the `slog.Attr` values the code
builds: `slog.String`, `slog.Bool`, a `slog.Any` holding a `[]string`
(the call stack), and a `slog.Any` holding a `map[string]any` (the extracted
context, modelled as an association list). `α` is the type of context
values. -/
inductive Attr (α : Type) where
  | str (key val : String)
  | boolAttr (key : String) (b : Bool)
  | strList (key : String) (vals : List String)
  | anyMap (key : String) (m : List (String × α))
deriving DecidableEq

/-- `z.appendAttr(attr)`: `z.attrs = append(z.attrs, attr)`. -/
def appendAttr {α : Type} (attrs : List (Attr α)) (a : Attr α) : List (Attr α) :=
  attrs ++ [a]

/-- The segment string built by `Segment`:
`if len(detail) > 0 { mainSegment += "/" + strings.Join(detail, "/") }`. -/
def segmentValue (mainSegment : String) (detail : List String) : String :=
  if detail.length > 0 then mainSegment ++ "/" ++ String.intercalate "/" detail
  else mainSegment

/-- `func (z *zlogImpl) Segment(mainSegment string, detail ...string) ZLogger`:
appends one `slog.String("segment", ...)` attribute. -/
def Segment {α : Type} (attrs : List (Attr α)) (mainSegment : String)
    (detail : List String) : List (Attr α) :=
  appendAttr attrs (Attr.str "segment" (segmentValue mainSegment detail))

/-- A Go `error` value: the only operation the code uses is the `Error()`
method, which returns a message string. -/
structure GoError where
  msg : String
deriving DecidableEq

/-- The `err.Error()` method call. A Go `error` variable may be `nil`
(modelled as `none`); invoking `Error()` on a nil interface value is a nil
dereference that panics, modelled as the `none` result. -/
def errorMethod : Option GoError → Option String
  | none => none
  | some e => some e.msg

/-- `func (z *zlogImpl) WithError(err error) ZLogger`:
`return z.appendAttr(slog.String("error_msg", err.Error()))`.
The method calls `err.Error()` unconditionally, so a `nil` argument panics:
the result is `none` exactly when `err` is `nil`. -/
def WithError {α : Type} (attrs : List (Attr α)) (err : Option GoError) :
    Option (List (Attr α)) :=
  (errorMethod err).map fun m => appendAttr attrs (Attr.str "error_msg" m)

/-- `func (z *zlogImpl) Err(err error) ZLogger`: `return z.WithError(err)`. -/
def Err {α : Type} (attrs : List (Attr α)) (err : Option GoError) :
    Option (List (Attr α)) :=
  WithError attrs err

/-- Go map assignment `contextMap[key] = value` on an association list:
overwrite the binding when the key is present, add it otherwise (a Go map is
unordered, so only the key-value contents are observable). -/
def mapInsert {α : Type} : List (String × α) → String → α → List (String × α)
  | [], k, v => [(k, v)]
  | p :: t, k, v => if p.1 == k then (k, v) :: t else p :: mapInsert t k v

/-- The loop of `Context`: for each key, `value := ctx.Value(key)`;
`if value != nil { contextMap[key] = value }`. The `context.Context`
key-value store is modelled as the lookup function `ctxValue`
(`none` = `nil`). -/
def buildContextMap {α : Type} (ctxValue : String → Option α) :
    List String → List (String × α) → List (String × α)
  | [], m => m
  | key :: keys, m =>
    match ctxValue key with
    | none => buildContextMap ctxValue keys m
    | some v => buildContextMap ctxValue keys (mapInsert m key v)

/-- Association-list lookup, for stating what `buildContextMap` contains. -/
def lookupKey {α : Type} : List (String × α) → String → Option α
  | [], _ => none
  | p :: t, k => if p.1 == k then some p.2 else lookupKey t k

/-- `func (z *zlogImpl) Context(ctx context.Context, keys []string) ZLogger`:
builds `contextMap`; `if len(contextMap) == 0 { return z }`; otherwise
appends one `slog.Any("app_ctx", contextMap)` attribute. -/
def Context {α : Type} (attrs : List (Attr α)) (ctxValue : String → Option α)
    (keys : List String) : List (Attr α) :=
  let contextMap := buildContextMap ctxValue keys []
  if contextMap.length = 0 then attrs
  else appendAttr attrs (Attr.anyMap "app_ctx" contextMap)

/-- The frame data `runtime.Caller` reports: program counter, file, line. -/
structure Frame where
  pc : Nat
  file : String
  line : Int
deriving DecidableEq

/-- `strings.LastIndex(name, "/")`: index of the last `'/'`, `none` for the
Go result `-1`. -/
def lastIndexOfSlash (name : String) : Option Nat :=
  match name.toList.reverse.findIdx? (fun c => c == '/') with
  | none => none
  | some j => some (name.toList.length - 1 - j)

/-- The module-prefix strip in `getSourceString`:
`if moduleSeparator != -1 { funcName = funcName[moduleSeparator+1:] }`. -/
def stripModule (name : String) : String :=
  match lastIndexOfSlash name with
  | none => name
  | some i => String.mk (name.toList.drop (i + 1))

/-- `func getSourceString(skip int) (string, bool)`:
`runtime.Caller` not ok ⇒ `("", false)` (here `none`); a nil
`runtime.FuncForPC` result ⇒ the placeholder name `"?"`; otherwise the
module-stripped function name; formatted `#<name> @ <file>:<line>`. -/
def getSourceString (caller : Int → Option Frame) (funcForPC : Nat → Option String)
    (skip : Int) : Option String :=
  match caller skip with
  | none => none
  | some fr =>
    let funcName :=
      match funcForPC fr.pc with
      | none => "?"
      | some n => stripModule n
    some ("#" ++ funcName ++ " @ " ++ fr.file ++ ":" ++ toString fr.line)

/-- Go's `strings.HasPrefix(s, prefix)`, modelled at the character level:
`true` iff `prefix` is an initial segment of `s`. -/
def goHasPrefix (s p : String) : Bool := p.toList.isPrefixOf s.toList

/-- The early-termination marker tested by
`strings.HasPrefix(current, "#main.main")`. -/
def stopMarker : String := "#main.main"

/-- Body of the collection loop shared by `WithCallStack` and
`applyAutoFeatures`:

```
for skip := start; skip < maxDepth; skip++ {
    current, ok := getSourceString(skip)
    if !ok { continue }
    callStack = append(callStack, current)
    if strings.HasPrefix(current, "#main.main") { break }
}
```

The resolver `getSourceString` is abstracted as `f`. The loop runs while
`skip < maxDepth` and `skip` increases by one each iteration, so the number
of remaining iterations from a given `skip` is `(maxDepth - skip).toNat`,
used here as fuel. -/
def collectAux (f : Int → Option String) : Nat → Int → List String
  | 0, _ => []
  | fuel + 1, skip =>
    match f skip with
    | none => collectAux f fuel (skip + 1)
    | some current =>
      if goHasPrefix current stopMarker then [current]
      else current :: collectAux f fuel (skip + 1)

/-- The collection loop started at `startSkip` with exclusive skip bound
`maxDepth` (the loop condition is `skip < maxDepth`). -/
def collect (startSkip maxDepth : Int) (f : Int → Option String) : List String :=
  collectAux f (maxDepth - startSkip).toNat startSkip

/-- The frame list built by `WithCallStack` (its loop starts at `skip := 2`,
bounded by `z.maxCallStackDepth`). -/
def withCallStackFrames (maxDepth : Int) (f : Int → Option String) : List String :=
  collect 2 maxDepth f

/-- The frame list built by the auto-callstack branch of `applyAutoFeatures`
(its loop starts at `skip := 3`, bounded by `z.maxCallStackDepth`). -/
def autoCallStackFrames (maxDepth : Int) (f : Int → Option String) : List String :=
  collect 3 maxDepth f

/-- `func (z *zlogImpl) WithCallStack() ZLogger`: appends one
`slog.Any("callstack", callStack)` attribute. -/
def WithCallStack {α : Type} (attrs : List (Attr α)) (maxDepth : Int)
    (f : Int → Option String) : List (Attr α) :=
  appendAttr attrs (Attr.strList "callstack" (withCallStackFrames maxDepth f))

/-- The skip values `[s, s+1, ..., s+n-1]` (n consecutive integers from s). -/
def rangeFrom (s : Int) : Nat → List Int
  | 0 => []
  | n + 1 => s :: rangeFrom (s + 1) n

/-- Truncation of a frame list after the first entry carrying the stop
marker prefix: everything past the first `#main.main`-prefixed entry is
dropped, the marked entry itself is kept. -/
def truncAtMarker : List String → List String
  | [] => []
  | x :: xs => if goHasPrefix x stopMarker then [x] else x :: truncAtMarker xs

/-- `slog.LevelDebug`. -/
def LevelDebug : Int := -4

/-- `slog.LevelInfo`. -/
def LevelInfo : Int := 0

/-- `slog.LevelWarn`. -/
def LevelWarn : Int := 4

/-- `slog.LevelError`. -/
def LevelError : Int := 8

/-- `type levelConfig struct { AutoSource bool; AutoCallStack bool;
MaxCallStackDepth int }`. -/
structure levelConfig where
  AutoSource : Bool
  AutoCallStack : Bool
  MaxCallStackDepth : Int
deriving DecidableEq

/-- `type logConfig struct { Debug, Info, Warn, Error levelConfig }`. -/
structure logConfig where
  Debug : levelConfig
  Info : levelConfig
  Warn : levelConfig
  Error : levelConfig
deriving DecidableEq

/-- The package-level map
`defaultCallStackDepths = map[slog.Level]int{Debug: 20, Info: 5, Warn: 5,
Error: 10}`; a Go map lookup on a missing key yields the zero value `0`. -/
def defaultCallStackDepths (level : Int) : Int :=
  if level = LevelDebug then 20
  else if level = LevelInfo then 5
  else if level = LevelWarn then 5
  else if level = LevelError then 10
  else 0

/-- `func getMaxCallStackDepth(level slog.Level) int`: per-level switch; a
positive configured `MaxCallStackDepth` wins, else the default-table value;
the `default:` arm returns 5. -/
def getMaxCallStackDepth (config : logConfig) (level : Int) : Int :=
  if level = LevelDebug then
    if config.Debug.MaxCallStackDepth > 0 then config.Debug.MaxCallStackDepth
    else defaultCallStackDepths level
  else if level = LevelInfo then
    if config.Info.MaxCallStackDepth > 0 then config.Info.MaxCallStackDepth
    else defaultCallStackDepths level
  else if level = LevelWarn then
    if config.Warn.MaxCallStackDepth > 0 then config.Warn.MaxCallStackDepth
    else defaultCallStackDepths level
  else if level = LevelError then
    if config.Error.MaxCallStackDepth > 0 then config.Error.MaxCallStackDepth
    else defaultCallStackDepths level
  else 5

/-- A resolver that finds a distinct non-entry-point frame at every skip
value (used as a concrete instance for the collection loop claims). -/
def c2Resolver : Int → Option String := fun k => some ("#frame" ++ toString k)

/-- A resolver whose frame at skip 2 is an ordinary frame and whose frames
from skip 3 on carry the `#main.main` entry-point prefix. -/
def c4Resolver : Int → Option String :=
  fun k => if k = 2 then some "#alpha" else some "#main.main extra"

/-- A stack-introspection oracle holding exactly one frame, at skip 2. -/
def c7Caller : Int → Option Frame :=
  fun k => if k = 2 then some ⟨0, "a.go", 7⟩ else none

/-- A symbol-resolution oracle that never resolves a function name. -/
def c7FuncForPC : Nat → Option String := fun _ => none

/-- A context store holding `userID` and `requestID` and nothing else. -/
def c8CtxValue : String → Option String := fun k =>
  if k = "userID" then some "12345"
  else if k = "requestID" then some "req-abc-123" else none

/-- A configuration with an explicit positive depth for Debug and Error, a
zero (unset) depth for Info, and a negative depth for Warn. -/
def c6Config : logConfig :=
  ⟨⟨false, false, 7⟩, ⟨false, false, 0⟩, ⟨false, false, -1⟩, ⟨false, false, 12⟩⟩

/-! ## Lemmas about the collection loop -/

theorem collectAux_length_le (f : Int → Option String) :
    ∀ (fuel : Nat) (skip : Int), (collectAux f fuel skip).length ≤ fuel
  | 0, _ => Nat.le_refl 0
  | fuel + 1, skip => by
    simp only [collectAux]
    cases h : f skip with
    | none => exact Nat.le_succ_of_le (collectAux_length_le f fuel (skip + 1))
    | some current =>
      by_cases hp : goHasPrefix current stopMarker = true
      · simp [hp]
      · simp only [if_neg hp, List.length_cons]
        exact Nat.succ_le_succ (collectAux_length_le f fuel (skip + 1))

theorem collectAux_eq_trunc (f : Int → Option String) :
    ∀ (fuel : Nat) (skip : Int),
      collectAux f fuel skip = truncAtMarker ((rangeFrom skip fuel).filterMap f)
  | 0, _ => rfl
  | fuel + 1, skip => by
    simp only [collectAux, rangeFrom, List.filterMap_cons]
    cases h : f skip with
    | none => exact collectAux_eq_trunc f fuel (skip + 1)
    | some current =>
      simp only [truncAtMarker]
      by_cases hp : goHasPrefix current stopMarker = true
      · simp [hp]
      · simp only [if_neg hp]
        rw [collectAux_eq_trunc f fuel (skip + 1)]

theorem collectAux_dropLast_no_marker (f : Int → Option String) :
    ∀ (fuel : Nat) (skip : Int) (x : String),
      x ∈ (collectAux f fuel skip).dropLast → goHasPrefix x stopMarker = false
  | 0, skip, x => by simp [collectAux]
  | fuel + 1, skip, x => by
    simp only [collectAux]
    cases h : f skip with
    | none => exact collectAux_dropLast_no_marker f fuel (skip + 1) x
    | some current =>
      by_cases hp : goHasPrefix current stopMarker = true
      · simp [hp]
      · simp only [if_neg hp]
        intro hx
        rcases hrest : collectAux f fuel (skip + 1) with _ | ⟨y, ys⟩
        · rw [hrest] at hx
          simp at hx
        · rw [hrest] at hx
          rw [List.dropLast_cons₂] at hx
          rcases List.mem_cons.mp hx with rfl | hx'
          · exact Bool.eq_false_iff.mpr hp
          · have hrec := collectAux_dropLast_no_marker f fuel (skip + 1) x
            rw [hrest] at hrec
            exact hrec hx'

theorem collectAux_all_found (f : Int → Option String) (g : Int → String) :
    ∀ (fuel : Nat) (skip : Int),
      (∀ k ∈ rangeFrom skip fuel,
        f k = some (g k) ∧ goHasPrefix (g k) stopMarker = false) →
      collectAux f fuel skip = (rangeFrom skip fuel).map g
  | 0, _, _ => rfl
  | fuel + 1, skip, hg => by
    have hhead := hg skip (by simp [rangeFrom])
    have htail : ∀ k ∈ rangeFrom (skip + 1) fuel,
        f k = some (g k) ∧ goHasPrefix (g k) stopMarker = false :=
      fun k hk => hg k (by simp [rangeFrom, hk])
    simp only [collectAux, rangeFrom, List.map_cons]
    rw [hhead.1]
    dsimp only
    rw [if_neg (by simp [hhead.2])]
    rw [collectAux_all_found f g fuel (skip + 1) htail]

/-! ## Lemmas about the context map -/

theorem lookupKey_mapInsert {α : Type} :
    ∀ (m : List (String × α)) (k : String) (v : α) (k' : String),
      lookupKey (mapInsert m k v) k' = if k' = k then some v else lookupKey m k'
  | [], k, v, k' => by
    by_cases h : k' = k
    · simp [mapInsert, lookupKey, h]
    · have h' : k ≠ k' := fun hh => h hh.symm
      simp [mapInsert, lookupKey, h, h']
  | p :: t, k, v, k' => by
    have IH := lookupKey_mapInsert t k v k'
    by_cases hpk : p.1 = k
    · by_cases h : k' = k
      · subst h
        simp [mapInsert, lookupKey, hpk]
      · have h' : k ≠ k' := fun hh => h hh.symm
        have hp' : p.1 ≠ k' := hpk ▸ h'
        simp [mapInsert, lookupKey, hpk, h, h', hp']
    · by_cases h : k' = k
      · subst h
        simp [mapInsert, lookupKey, hpk, IH]
      · simp [mapInsert, lookupKey, hpk, h, IH]

theorem mapInsert_ne_nil {α : Type} (m : List (String × α)) (k : String) (v : α) :
    mapInsert m k v ≠ [] := by
  cases m with
  | nil => simp [mapInsert]
  | cons p t =>
    simp only [mapInsert]
    split <;> simp

theorem buildContextMap_lookupKey {α : Type} (f : String → Option α) :
    ∀ (keys : List String) (m : List (String × α)) (k : String),
      lookupKey (buildContextMap f keys m) k =
        if k ∈ keys ∧ (f k).isSome = true then f k else lookupKey m k
  | [], m, k => by simp [buildContextMap]
  | key :: keys, m, k => by
    cases hf : f key with
    | none =>
      simp only [buildContextMap, hf]
      rw [buildContextMap_lookupKey f keys m k]
      by_cases hk : k = key
      · subst hk
        simp [hf]
      · simp [List.mem_cons, hk]
    | some v =>
      simp only [buildContextMap, hf]
      rw [buildContextMap_lookupKey f keys (mapInsert m key v) k]
      rw [lookupKey_mapInsert]
      by_cases hk : k = key
      · subst hk
        by_cases hmem : k ∈ keys
        · simp [hmem, hf]
        · simp [hmem, hf]
      · simp [List.mem_cons, hk]

theorem buildContextMap_eq_nil_iff {α : Type} (f : String → Option α) :
    ∀ (keys : List String) (m : List (String × α)),
      buildContextMap f keys m = [] ↔ m = [] ∧ ∀ k ∈ keys, f k = none
  | [], m => by simp [buildContextMap]
  | key :: keys, m => by
    cases hf : f key with
    | none =>
      simp only [buildContextMap, hf]
      rw [buildContextMap_eq_nil_iff f keys m]
      simp [List.forall_mem_cons, hf]
    | some v =>
      simp only [buildContextMap, hf]
      rw [buildContextMap_eq_nil_iff f keys (mapInsert m key v)]
      simp [mapInsert_ne_nil, List.forall_mem_cons, hf]

/-! ## Claim theorems -/

/-- Claim C1: evaluation of `Segment` at the disputed inputs. The code joins
the detail segments with `/` without filtering out empty strings, so
`Segment("main","","sub")` yields `"main//sub"` (not the `"main/sub"` the
claim and the repository's own regression tests demand) and
`Segment("api","","","users","","create")` yields `"api///users//create"`;
only `Segment("solo")` matches the claim. Exactly one `segment` attribute is
appended. -/
theorem segment_keeps_empty_details :
    segmentValue "main" ["", "sub"] = "main//sub" ∧
    segmentValue "api" ["", "", "users", "", "create"] = "api///users//create" ∧
    segmentValue "solo" [] = "solo" ∧
    Segment ([] : List (Attr Unit)) "main" ["", "sub"] =
      [Attr.str "segment" "main//sub"] :=
  ⟨rfl, rfl, rfl, rfl⟩

/-- Claim C2 counterexample: with an always-found resolver whose frames never
carry the entry-point prefix, starting at skip 2 with `max_depth` 5 the loop
visits only the skips 2, 3, 4 (`rangeFrom 2 3`) and collects 3 frames — not
the skips 2..6 (`rangeFrom 2 5`) and 5 frames that iterating from `s` up to
`s + M` would produce. -/
theorem collect_skip_range_counterexample :
    withCallStackFrames 5 c2Resolver =
      (rangeFrom 2 3).map (fun k => "#frame" ++ toString k) ∧
    withCallStackFrames 5 c2Resolver ≠
      (rangeFrom 2 5).map (fun k => "#frame" ++ toString k) := by
  constructor
  · decide
  · decide

/-- Claim C2 (amended): the collector iterates `skip` from `start_skip` up to
but not including `max_depth` itself (the configured depth is an exclusive
bound on the skip value, not a frame count), invoking the resolver once at
each step, and therefore considers and collects at most
`max_depth − start_skip` frames: the result is bounded by `(M − s).toNat`,
and against an always-found resolver with no entry-point frames it is
exactly the resolved frames of the skips `s, s+1, ..., M−1`. -/
theorem collect_iterates_to_max_depth (s M : Int) (f : Int → Option String) :
    (collect s M f).length ≤ (M - s).toNat ∧
    ∀ g : Int → String,
      (∀ k ∈ rangeFrom s (M - s).toNat,
        f k = some (g k) ∧ goHasPrefix (g k) stopMarker = false) →
      collect s M f = (rangeFrom s (M - s).toNat).map g :=
  ⟨collectAux_length_le f _ s, fun g hg => collectAux_all_found f g _ s hg⟩

/-- Claim C2 witness: the amended statement evaluated at start skip 2,
`max_depth` 5 and the concrete resolver. -/
theorem collect_iterates_to_max_depth_witness :
    collect 2 5 c2Resolver =
      (rangeFrom 2 ((5 : Int) - 2).toNat).map (fun k => "#frame" ++ toString k) :=
  (collect_iterates_to_max_depth 2 5 c2Resolver).2
    (fun k => "#frame" ++ toString k) (by decide)

/-- Claim C3: for every resolver and every configured `max_depth` M ≥ 0, the
frame sequence attached by `WithCallStack` (loop from skip 2) and by the
auto-callstack feature of `applyAutoFeatures` (loop from skip 3) has length
at most M. -/
theorem callstack_length_le_max_depth (M : Int) (f : Int → Option String)
    (h : 0 ≤ M) :
    ((withCallStackFrames M f).length : Int) ≤ M ∧
    ((autoCallStackFrames M f).length : Int) ≤ M := by
  have h1 := collectAux_length_le f (M - 2).toNat 2
  have h2 := collectAux_length_le f (M - 3).toNat 3
  simp only [withCallStackFrames, autoCallStackFrames, collect]
  omega

/-- Claim C3 witness: both bounds at `max_depth` 5 with a concrete
resolver. -/
theorem callstack_length_le_max_depth_witness :
    ((withCallStackFrames 5 (fun _ => some "#x")).length : Int) ≤ 5 ∧
    ((autoCallStackFrames 5 (fun _ => some "#x")).length : Int) ≤ 5 :=
  callstack_length_le_max_depth 5 (fun _ => some "#x") (by decide)

/-- Claim C4: the loop breaks immediately after appending a frame whose
formatted string begins with the stop marker `"#main.main"`, so in the
collected sequence every element other than the last one lacks the marker
prefix: a marker frame, when reached within the depth bound, is the last
element and no frame past it is included. -/
theorem marker_frame_is_last (s M : Int) (f : Int → Option String) (x : String)
    (hx : x ∈ (collect s M f).dropLast) : goHasPrefix x stopMarker = false :=
  collectAux_dropLast_no_marker f _ _ x hx

/-- Claim C4 witness: with a resolver reaching an entry-point frame at skip
3, the frame collected before it is not marker-prefixed. -/
theorem marker_frame_is_last_witness : goHasPrefix "#alpha" stopMarker = false :=
  marker_frame_is_last 2 5 c4Resolver "#alpha"
    (by
      have h : (collect 2 5 c4Resolver).dropLast = ["#alpha"] := by decide
      rw [h]
      exact List.mem_singleton.mpr rfl)

/-- Claim C5: a skip value at which the resolver reports no frame
(`found=false`, modelled as `none`) contributes nothing and never
terminates the loop: the collected sequence equals the marker-truncation of
the resolver's found frames over the whole skip range `[s, M)` —
resolution failures are simply dropped (`List.filterMap`), the iteration
continues past them to the end of the range, and no error is produced (the
collector is a total function into frame lists). -/
theorem unresolved_frames_skipped (s M : Int) (f : Int → Option String) :
    collect s M f = truncAtMarker ((rangeFrom s (M - s).toNat).filterMap f) :=
  collectAux_eq_trunc f _ s

/-- Claim C6: per-level effective depth: a positive configured
`MaxCallStackDepth` wins; otherwise the defaults Debug=20, Info=5, Warn=5,
Error=10 apply; every unrecognized level yields 5. -/
theorem max_depth_policy (config : logConfig) :
    ((0 < config.Debug.MaxCallStackDepth →
        getMaxCallStackDepth config LevelDebug = config.Debug.MaxCallStackDepth) ∧
      (config.Debug.MaxCallStackDepth ≤ 0 →
        getMaxCallStackDepth config LevelDebug = 20)) ∧
    ((0 < config.Info.MaxCallStackDepth →
        getMaxCallStackDepth config LevelInfo = config.Info.MaxCallStackDepth) ∧
      (config.Info.MaxCallStackDepth ≤ 0 →
        getMaxCallStackDepth config LevelInfo = 5)) ∧
    ((0 < config.Warn.MaxCallStackDepth →
        getMaxCallStackDepth config LevelWarn = config.Warn.MaxCallStackDepth) ∧
      (config.Warn.MaxCallStackDepth ≤ 0 →
        getMaxCallStackDepth config LevelWarn = 5)) ∧
    ((0 < config.Error.MaxCallStackDepth →
        getMaxCallStackDepth config LevelError = config.Error.MaxCallStackDepth) ∧
      (config.Error.MaxCallStackDepth ≤ 0 →
        getMaxCallStackDepth config LevelError = 10)) ∧
    (∀ level : Int, level ≠ LevelDebug → level ≠ LevelInfo →
      level ≠ LevelWarn → level ≠ LevelError →
      getMaxCallStackDepth config level = 5) := by
  refine ⟨⟨?_, ?_⟩, ⟨?_, ?_⟩, ⟨?_, ?_⟩, ⟨?_, ?_⟩, ?_⟩
  · intro h
    simp [getMaxCallStackDepth, LevelDebug, LevelInfo, LevelWarn, LevelError, h]
  · intro h
    have h' : ¬ config.Debug.MaxCallStackDepth > 0 := by omega
    simp [getMaxCallStackDepth, defaultCallStackDepths, LevelDebug, LevelInfo,
      LevelWarn, LevelError, h']
  · intro h
    simp [getMaxCallStackDepth, LevelDebug, LevelInfo, LevelWarn, LevelError, h]
  · intro h
    have h' : ¬ config.Info.MaxCallStackDepth > 0 := by omega
    simp [getMaxCallStackDepth, defaultCallStackDepths, LevelDebug, LevelInfo,
      LevelWarn, LevelError, h']
  · intro h
    simp [getMaxCallStackDepth, LevelDebug, LevelInfo, LevelWarn, LevelError, h]
  · intro h
    have h' : ¬ config.Warn.MaxCallStackDepth > 0 := by omega
    simp [getMaxCallStackDepth, defaultCallStackDepths, LevelDebug, LevelInfo,
      LevelWarn, LevelError, h']
  · intro h
    simp [getMaxCallStackDepth, LevelDebug, LevelInfo, LevelWarn, LevelError, h]
  · intro h
    have h' : ¬ config.Error.MaxCallStackDepth > 0 := by omega
    simp [getMaxCallStackDepth, defaultCallStackDepths, LevelDebug, LevelInfo,
      LevelWarn, LevelError, h']
  · intro level h1 h2 h3 h4
    simp [getMaxCallStackDepth, h1, h2, h3, h4]

/-- Claim C6 witness: the policy evaluated on a concrete configuration
(Debug configured to 7, Info unset, Warn configured negative, Error
configured to 12) and on the unrecognized level 99. -/
theorem max_depth_policy_witness :
    getMaxCallStackDepth c6Config LevelDebug = 7 ∧
    getMaxCallStackDepth c6Config LevelInfo = 5 ∧
    getMaxCallStackDepth c6Config LevelWarn = 5 ∧
    getMaxCallStackDepth c6Config LevelError = 12 ∧
    getMaxCallStackDepth c6Config 99 = 5 :=
  ⟨(max_depth_policy c6Config).1.1 (by decide),
   (max_depth_policy c6Config).2.1.2 (by decide),
   (max_depth_policy c6Config).2.2.1.2 (by decide),
   (max_depth_policy c6Config).2.2.2.1.1 (by decide),
   (max_depth_policy c6Config).2.2.2.2 99 (by decide) (by decide) (by decide)
     (by decide)⟩

/-- Claim C7: `getSourceString` returns `none` (`found=false`) precisely
when `runtime.Caller` reports no frame at the requested skip; when a frame
exists but `runtime.FuncForPC` cannot resolve its symbol, the function name
is substituted with the placeholder `"?"` and the frame is still reported
found. -/
theorem frame_resolver_placeholder (caller : Int → Option Frame)
    (funcForPC : Nat → Option String) (skip : Int) :
    (getSourceString caller funcForPC skip = none ↔ caller skip = none) ∧
    (∀ fr : Frame, caller skip = some fr → funcForPC fr.pc = none →
      getSourceString caller funcForPC skip =
        some ("#? @ " ++ fr.file ++ ":" ++ toString fr.line)) := by
  constructor
  · cases h : caller skip <;> simp [getSourceString, h]
  · intro fr hfr hpc
    simp only [getSourceString, hfr, hpc]
    rfl

/-- Claim C7 witness: a one-frame stack whose symbol never resolves: the
frame at skip 2 is found with the `"?"` placeholder, and skip 3 is the only
kind of input reported not found. -/
theorem frame_resolver_placeholder_witness :
    getSourceString c7Caller c7FuncForPC 2 = some "#? @ a.go:7" ∧
    getSourceString c7Caller c7FuncForPC 3 = none :=
  ⟨(frame_resolver_placeholder c7Caller c7FuncForPC 2).2 ⟨0, "a.go", 7⟩
      (by decide) rfl,
   (frame_resolver_placeholder c7Caller c7FuncForPC 3).1.mpr (by decide)⟩

/-- Claim C8: `Context` appends at most one `app_ctx` attribute: none at
all when no lookup key resolves (the attribute list is returned unchanged,
with no empty-map attribute), and exactly one map attribute otherwise; the
map binds exactly the keys whose lookup is present, to the looked-up
values, and silently omits absent keys. -/
theorem context_map_extraction {α : Type} (attrs : List (Attr α))
    (ctxValue : String → Option α) (keys : List String) :
    ((∀ k ∈ keys, ctxValue k = none) → Context attrs ctxValue keys = attrs) ∧
    ((∃ k ∈ keys, (ctxValue k).isSome = true) →
      Context attrs ctxValue keys =
        attrs ++ [Attr.anyMap "app_ctx" (buildContextMap ctxValue keys [])]) ∧
    (∀ k : String, lookupKey (buildContextMap ctxValue keys []) k =
      if k ∈ keys ∧ (ctxValue k).isSome = true then ctxValue k else none) := by
  refine ⟨?_, ?_, ?_⟩
  · intro h
    have hnil : buildContextMap ctxValue keys [] = [] :=
      (buildContextMap_eq_nil_iff ctxValue keys []).mpr ⟨rfl, h⟩
    simp [Context, hnil]
  · rintro ⟨k, hk, hsome⟩
    have hne : buildContextMap ctxValue keys [] ≠ [] := by
      intro hnil
      have := ((buildContextMap_eq_nil_iff ctxValue keys []).mp hnil).2 k hk
      simp [this] at hsome
    have hlen : ¬ (buildContextMap ctxValue keys []).length = 0 := by
      simpa [List.length_eq_zero] using hne
    simp [Context, hlen, appendAttr]
  · intro k
    have h := buildContextMap_lookupKey ctxValue keys [] k
    simpa [lookupKey] using h

/-- Claim C8 witness: with a store holding `userID` and `requestID`, the
keys `["userID","requestID","missing"]` yield exactly one `app_ctx`
attribute binding the two present keys; the key list `["missing"]` leaves
the attribute list untouched. -/
theorem context_map_extraction_witness :
    Context ([] : List (Attr String)) c8CtxValue
        ["userID", "requestID", "missing"] =
      [Attr.anyMap "app_ctx"
        [("userID", "12345"), ("requestID", "req-abc-123")]] ∧
    Context ([] : List (Attr String)) c8CtxValue ["missing"] = [] :=
  ⟨((context_map_extraction [] c8CtxValue
        ["userID", "requestID", "missing"]).2.1
      ⟨"userID", by decide, by decide⟩).trans (by decide),
   (context_map_extraction [] c8CtxValue ["missing"]).1 (by decide)⟩

/-- Claim C9: a zero or negative configured `max_depth` makes both
collection loops collect nothing — the resulting frame sequence is empty —
rather than signalling any error (the collector and the resolver are total
functions of their inputs). -/
theorem nonpositive_depth_collects_nothing (M : Int) (f : Int → Option String)
    (h : M ≤ 0) :
    withCallStackFrames M f = [] ∧ autoCallStackFrames M f = [] := by
  have h2 : (M - 2).toNat = 0 := by omega
  have h3 : (M - 3).toNat = 0 := by omega
  constructor
  · simp [withCallStackFrames, collect, h2, collectAux]
  · simp [autoCallStackFrames, collect, h3, collectAux]

/-- Claim C9 witness: a negative `max_depth` with an always-found resolver
collects nothing. -/
theorem nonpositive_depth_collects_nothing_witness :
    withCallStackFrames (-3) (fun _ => some "#boom") = [] ∧
    autoCallStackFrames (-3) (fun _ => some "#boom") = [] :=
  nonpositive_depth_collects_nothing (-3) (fun _ => some "#boom") (by decide)

/-- Claim C10: for a non-nil error, `WithError` and its alias `Err` append
exactly one `error_msg` attribute carrying `err.Error()` and leave the
previously accumulated attributes unchanged; for a nil error the
unconditional `err.Error()` call has no defined result (modelled as
`none`), instead of emitting a record without the field. -/
theorem with_error_appends_error_msg {α : Type} (attrs : List (Attr α)) :
    (∀ e : GoError,
      WithError attrs (some e) =
          some (attrs ++ [Attr.str "error_msg" e.msg]) ∧
        Err attrs (some e) = some (attrs ++ [Attr.str "error_msg" e.msg])) ∧
    WithError attrs none = none ∧ Err attrs (none : Option GoError) = none :=
  ⟨fun _ => ⟨rfl, rfl⟩, rfl, rfl⟩

end Zlog
